import Mathlib

/-!
Verification of the budget-allocator engine (`src/lib/constants.ts`,
`calculateAllocation` and its static tables) against its specification.

Numbers are modelled as rationals; `Math.round` is `⌊x + 1/2⌋` (JavaScript
rounds half toward positive infinity); the final `Array.prototype.sort`
with comparator `(a, b) => b.budget - a.budget` is a stable sort by
descending budget, modelled with `List.mergeSort`.
-/

/-- The seven advertising platforms of the `PLATFORMS` catalog. -/
inductive Platform
  | meta
  | google_search
  | google_display
  | tiktok
  | linkedin
  | twitter
  | snapchat
deriving DecidableEq, Fintype

/-- The four campaign objectives of the `OBJECTIVES` catalog. -/
inductive Objective
  | awareness
  | engagement
  | conversions
  | leads
deriving DecidableEq, Fintype

/-- The `internalKey` string of each platform. -/
def internalKey : Platform → String
  | .meta => "meta"
  | .google_search => "google_search"
  | .google_display => "google_display"
  | .tiktok => "tiktok"
  | .linkedin => "linkedin"
  | .twitter => "twitter"
  | .snapchat => "snapchat"

/-- The `PLATFORMS` catalog: key paired with display name, in source order. -/
def PLATFORMS : List (Platform × String) :=
  [(.meta, "Meta Ads"),
   (.google_search, "Google Search Ads"),
   (.google_display, "Google Display YouTube"),
   (.tiktok, "TikTok Ads"),
   (.linkedin, "LinkedIn Ads"),
   (.twitter, "Twitter X Ads"),
   (.snapchat, "Snapchat Ads")]

/-- The display-name lookup `PLATFORMS.find(...)?.name || platformKey`. -/
def displayName (p : Platform) : String :=
  match PLATFORMS.find? (fun e => e.1 == p) with
  | some e => e.2
  | none => internalKey p

/-- The `BASE_WEIGHTS` table, one association row per objective, in source
order (the version of the source that includes the `leads` objective). -/
def BASE_WEIGHTS : Objective → List (Platform × ℚ)
  | .awareness =>
      [(.meta, 25), (.google_search, 0), (.google_display, 20), (.tiktok, 25),
       (.linkedin, 5), (.twitter, 10), (.snapchat, 15)]
  | .engagement =>
      [(.meta, 25), (.google_search, 20), (.google_display, 5), (.tiktok, 20),
       (.linkedin, 10), (.twitter, 15), (.snapchat, 5)]
  | .conversions =>
      [(.meta, 25), (.google_search, 35), (.google_display, 5), (.tiktok, 10),
       (.linkedin, 15), (.twitter, 5), (.snapchat, 5)]
  | .leads =>
      [(.meta, 30), (.google_search, 30), (.linkedin, 20), (.tiktok, 10),
       (.google_display, 5), (.twitter, 3), (.snapchat, 2)]

/-- The lookup `BASE_WEIGHTS[objective][platformKey]`; an absent key would read as 0. -/
def baseWeight (o : Objective) (p : Platform) : ℚ :=
  match (BASE_WEIGHTS o).find? (fun e => e.1 == p) with
  | some e => e.2
  | none => 0

/-- The `BenchmarkInputs` record: three partial maps from platform to a cost
metric (absent entry = `undefined`). -/
structure BenchmarkInputs where
  cpm : Platform → Option ℚ
  cpc : Platform → Option ℚ
  cpa : Platform → Option ℚ

/-- One row of the returned allocation table. -/
structure AllocationResult where
  platform : String
  allocationPercentage : ℚ
  budget : ℚ
deriving DecidableEq

/-- JavaScript `Math.round`: nearest integer, halves toward positive infinity. -/
def jsRound (q : ℚ) : ℤ := ⌊q + 1/2⌋

/-- The frozen `FIXED_FUNNEL_SPLIT` stage table: name and percentage. -/
def FIXED_FUNNEL_STAGES : List (String × ℚ) :=
  [("Awareness", 40), ("Traffic", 35), ("Conversions", 25)]

/-- The `activeBenchmarks` accumulation: the benchmark values of the selected
platforms that supplied a strictly positive value, in selection order. -/
def activeBenchmarks (m : Platform → Option ℚ) (sel : List Platform) : List ℚ :=
  sel.filterMap (fun q => (m q).bind (fun v => if 0 < v then some v else none))

/-- The body shared by the four advanced-mode branches: if the platform's own
benchmark is defined and positive and the average over `ab` is defined,
scale the base weight by average over own value; otherwise keep it. -/
def adjustIfPositive (base : ℚ) (own : Option ℚ) (ab : List ℚ) : ℚ :=
  match own with
  | some c => if 0 < c ∧ ab ≠ [] then base * ((ab.sum / (ab.length : ℚ)) / c) else base
  | none => base

/-- The per-platform weight computation of the advanced-mode `if`/`else if`
chain (awareness uses CPM, engagement CPC, conversions and leads CPA). -/
def adjustedWeight (o : Objective) (bm : BenchmarkInputs) (sel : List Platform)
    (p : Platform) : ℚ :=
  if o = .awareness ∧ (bm.cpm p).isSome then
    adjustIfPositive (baseWeight o p) (bm.cpm p) (activeBenchmarks bm.cpm sel)
  else if o = .engagement ∧ (bm.cpc p).isSome then
    adjustIfPositive (baseWeight o p) (bm.cpc p) (activeBenchmarks bm.cpc sel)
  else if o = .conversions ∧ (bm.cpa p).isSome then
    adjustIfPositive (baseWeight o p) (bm.cpa p) (activeBenchmarks bm.cpa sel)
  else if o = .leads ∧ (bm.cpa p).isSome then
    adjustIfPositive (baseWeight o p) (bm.cpa p) (activeBenchmarks bm.cpa sel)
  else baseWeight o p

/-- The entry of the `platformWeights` record for a selected platform:
adjusted in advanced mode, the plain base weight otherwise. -/
def platformWeight (adv : Bool) (o : Objective) (bm : BenchmarkInputs)
    (sel : List Platform) (p : Platform) : ℚ :=
  if adv then adjustedWeight o bm sel p else baseWeight o p

/-- The `sumOfSelectedWeights` value: `Object.values(platformWeights)` sums one entry
per distinct selected key (duplicate keys overwrite in the record). -/
def sumOfSelectedWeights (adv : Bool) (o : Objective) (bm : BenchmarkInputs)
    (sel : List Platform) : ℚ :=
  (sel.dedup.map (platformWeight adv o bm sel)).sum

/-- The full-funnel `forEach`: every stage but the last is rounded; the last
keeps its exact product (it is adjusted afterwards). -/
def stageEntries (B : ℚ) : List (String × ℚ) → List AllocationResult
  | [] => []
  | [(n, pct)] => [⟨n, pct, pct / 100 * B⟩]
  | (n, pct) :: q :: rest =>
      ⟨n, pct, ((jsRound (pct / 100 * B) : ℤ) : ℚ)⟩ :: stageEntries B (q :: rest)

/-- The multi-platform `forEach`: every platform but the last gets a rounded
amount; the last keeps its exact share (it is adjusted afterwards). -/
def platformEntries (B S : ℚ) (w : Platform → ℚ) : List Platform → List AllocationResult
  | [] => []
  | [p] => [⟨displayName p, w p / S * 100, w p / S * B⟩]
  | p :: q :: rest =>
      ⟨displayName p, w p / S * 100, ((jsRound (w p / S * B) : ℤ) : ℚ)⟩ ::
        platformEntries B S w (q :: rest)

/-- Add `d` to the budget of the last entry (no-op on the empty list). -/
def addToLast (d : ℚ) : List AllocationResult → List AllocationResult
  | [] => []
  | [r] => [{ r with budget := r.budget + d }]
  | r :: s :: rest => r :: addToLast d (s :: rest)

/-- The sum of the `budget` fields of a result list. -/
def budgetSum (rs : List AllocationResult) : ℚ :=
  (rs.map AllocationResult.budget).sum

/-- The adjustment `results[last].budget += totalBudget - allocatedSum`. -/
def absorbRemainder (B : ℚ) (rs : List AllocationResult) : List AllocationResult :=
  addToLast (B - budgetSum rs) rs

/-- The sort comparator `(a, b) => b.budget - a.budget` as an order test. -/
def byBudgetDesc (a b : AllocationResult) : Bool :=
  decide (b.budget ≤ a.budget)

/-- The call `results.sort((a, b) => b.budget - a.budget)`: stable descending sort. -/
def sortByBudgetDesc (rs : List AllocationResult) : List AllocationResult :=
  rs.mergeSort byBudgetDesc

/-- The multi-platform branch: zero weight sum returns empty, otherwise
normalize, allocate, absorb the remainder, sort. -/
def multiAllocation (B : ℚ) (o : Objective) (sel : List Platform) (adv : Bool)
    (bm : BenchmarkInputs) : List AllocationResult :=
  if sumOfSelectedWeights adv o bm sel = 0 then []
  else
    sortByBudgetDesc (absorbRemainder B
      (platformEntries B (sumOfSelectedWeights adv o bm sel)
        (platformWeight adv o bm sel) sel))

/-- The function `calculateAllocation` from the source: degenerate-input guard, then the
full-funnel branch, the single-platform branch, or the weighted branch. -/
def calculateAllocation (totalBudget : ℚ) (objective : Objective)
    (selectedPlatforms : List Platform) (isAdvancedMode : Bool)
    (benchmarks : BenchmarkInputs) (isFullFunnelEnabled : Bool) :
    List AllocationResult :=
  if totalBudget ≤ 0 ∨ selectedPlatforms = [] then []
  else if isFullFunnelEnabled then
    sortByBudgetDesc (absorbRemainder totalBudget
      (stageEntries totalBudget FIXED_FUNNEL_STAGES))
  else
    match selectedPlatforms with
    | [] => []
    | [p] => [⟨displayName p, 100, totalBudget⟩]
    | p :: q :: rest =>
        multiAllocation totalBudget objective (p :: q :: rest) isAdvancedMode benchmarks

/-- The multi-platform branch before its final sort. -/
def rawMultiAllocation (B : ℚ) (o : Objective) (sel : List Platform) (adv : Bool)
    (bm : BenchmarkInputs) : List AllocationResult :=
  if sumOfSelectedWeights adv o bm sel = 0 then []
  else
    absorbRemainder B
      (platformEntries B (sumOfSelectedWeights adv o bm sel)
        (platformWeight adv o bm sel) sel)

/-- The function `calculateAllocation` with the final sorts removed: the result lists in
the order the source pushes them, before `results.sort`. -/
def rawAllocation (totalBudget : ℚ) (objective : Objective)
    (selectedPlatforms : List Platform) (isAdvancedMode : Bool)
    (benchmarks : BenchmarkInputs) (isFullFunnelEnabled : Bool) :
    List AllocationResult :=
  if totalBudget ≤ 0 ∨ selectedPlatforms = [] then []
  else if isFullFunnelEnabled then
    absorbRemainder totalBudget (stageEntries totalBudget FIXED_FUNNEL_STAGES)
  else
    match selectedPlatforms with
    | [] => []
    | [p] => [⟨displayName p, 100, totalBudget⟩]
    | p :: q :: rest =>
        rawMultiAllocation totalBudget objective (p :: q :: rest) isAdvancedMode benchmarks

/-- An empty benchmark form: no platform supplies any metric. -/
def emptyBench : BenchmarkInputs :=
  ⟨fun _ => none, fun _ => none, fun _ => none⟩

/-- Every non-last stage entry keeps its stage name and percentage; lengths
match the stage table. -/
theorem length_stageEntries (B : ℚ) : ∀ l, (stageEntries B l).length = l.length
  | [] => rfl
  | [(n, pct)] => rfl
  | (n, pct) :: q :: rest => by
      simp only [stageEntries, List.length_cons, length_stageEntries B (q :: rest)]

theorem length_platformEntries (B S : ℚ) (w : Platform → ℚ) :
    ∀ sel, (platformEntries B S w sel).length = sel.length
  | [] => rfl
  | [p] => rfl
  | p :: q :: rest => by
      simp only [platformEntries, List.length_cons,
        length_platformEntries B S w (q :: rest)]

theorem length_addToLast (d : ℚ) : ∀ rs, (addToLast d rs).length = rs.length
  | [] => rfl
  | [r] => rfl
  | r :: s :: rest => by
      simp only [addToLast, List.length_cons, length_addToLast d (s :: rest)]

theorem length_absorbRemainder (B : ℚ) (rs : List AllocationResult) :
    (absorbRemainder B rs).length = rs.length :=
  length_addToLast _ rs

theorem length_sortByBudgetDesc (rs : List AllocationResult) :
    (sortByBudgetDesc rs).length = rs.length :=
  List.length_mergeSort rs

theorem budgetSum_addToLast (d : ℚ) :
    ∀ rs, rs ≠ [] → budgetSum (addToLast d rs) = budgetSum rs + d
  | [], h => absurd rfl h
  | [r], _ => by simp [addToLast, budgetSum]
  | r :: s :: rest, _ => by
      have ih := budgetSum_addToLast d (s :: rest) (by simp)
      simp only [addToLast, budgetSum, List.map_cons, List.sum_cons] at ih ⊢
      rw [ih]; ring

theorem budgetSum_absorbRemainder (B : ℚ) (rs : List AllocationResult)
    (h : rs ≠ []) : budgetSum (absorbRemainder B rs) = B := by
  rw [absorbRemainder, budgetSum_addToLast _ _ h]; ring

theorem budgetSum_sortByBudgetDesc (rs : List AllocationResult) :
    budgetSum (sortByBudgetDesc rs) = budgetSum rs :=
  ((List.mergeSort_perm rs byBudgetDesc).map AllocationResult.budget).sum_eq

theorem byBudgetDesc_trans : ∀ a b c, byBudgetDesc a b → byBudgetDesc b c →
    byBudgetDesc a c := by
  intro a b c h1 h2
  simp only [byBudgetDesc, decide_eq_true_iff] at h1 h2 ⊢
  exact le_trans h2 h1

theorem byBudgetDesc_total : ∀ a b, byBudgetDesc a b || byBudgetDesc b a := by
  intro a b
  simp only [byBudgetDesc, Bool.or_eq_true, decide_eq_true_iff]
  exact le_total _ _

theorem baseWeight_nonneg : ∀ (o : Objective) (p : Platform), 0 ≤ baseWeight o p := by
  decide

theorem displayName_injective : ∀ p q : Platform, displayName p = displayName q → p = q := by
  decide

theorem activeBenchmarks_pos (m : Platform → Option ℚ) (sel : List Platform) :
    ∀ v ∈ activeBenchmarks m sel, 0 < v := by
  intro v hv
  simp only [activeBenchmarks, List.mem_filterMap, Option.bind_eq_some] at hv
  obtain ⟨p, -, c, -, hc⟩ := hv
  by_cases h : 0 < c
  · simp only [if_pos h, Option.some.injEq] at hc; exact hc ▸ h
  · simp [if_neg h] at hc

theorem mem_activeBenchmarks (m : Platform → Option ℚ) (sel : List Platform)
    (p : Platform) (c : ℚ) (hp : p ∈ sel) (hc : m p = some c) (hpos : 0 < c) :
    c ∈ activeBenchmarks m sel := by
  simp only [activeBenchmarks, List.mem_filterMap]
  exact ⟨p, hp, by simp [hc, hpos]⟩

theorem adjustIfPositive_nonneg (base : ℚ) (own : Option ℚ) (ab : List ℚ)
    (hbase : 0 ≤ base) (hab : ∀ v ∈ ab, 0 < v) : 0 ≤ adjustIfPositive base own ab := by
  cases own with
  | none => exact hbase
  | some c =>
      simp only [adjustIfPositive]
      split_ifs with h
      · exact mul_nonneg hbase (div_nonneg
          (div_nonneg (List.sum_nonneg (fun v hv => (hab v hv).le)) (Nat.cast_nonneg _))
          h.1.le)
      · exact hbase

theorem platformWeight_nonneg (adv : Bool) (o : Objective) (bm : BenchmarkInputs)
    (sel : List Platform) (p : Platform) : 0 ≤ platformWeight adv o bm sel p := by
  unfold platformWeight adjustedWeight
  split_ifs
  any_goals exact baseWeight_nonneg o p
  all_goals
    exact adjustIfPositive_nonneg _ _ _ (baseWeight_nonneg o p) (activeBenchmarks_pos _ _)

theorem calc_degenerate (B : ℚ) (o : Objective) (sel : List Platform) (adv : Bool)
    (bm : BenchmarkInputs) (ff : Bool) (h : B ≤ 0 ∨ sel = []) :
    calculateAllocation B o sel adv bm ff = [] := by
  unfold calculateAllocation
  rw [if_pos h]

theorem calc_funnel (B : ℚ) (o : Objective) (sel : List Platform) (adv : Bool)
    (bm : BenchmarkInputs) (hB : 0 < B) (hsel : sel ≠ []) :
    calculateAllocation B o sel adv bm true =
      sortByBudgetDesc (absorbRemainder B (stageEntries B FIXED_FUNNEL_STAGES)) := by
  unfold calculateAllocation
  rw [if_neg (by simp [not_or, hsel, not_le.mpr hB]), if_pos rfl]

theorem calc_single (B : ℚ) (o : Objective) (p : Platform) (adv : Bool)
    (bm : BenchmarkInputs) (hB : 0 < B) :
    calculateAllocation B o [p] adv bm false = [⟨displayName p, 100, B⟩] := by
  unfold calculateAllocation
  rw [if_neg (by simp [not_or, not_le.mpr hB])]
  rfl

theorem calc_multi (B : ℚ) (o : Objective) (sel : List Platform) (adv : Bool)
    (bm : BenchmarkInputs) (hB : 0 < B) (hlen : 2 ≤ sel.length) :
    calculateAllocation B o sel adv bm false = multiAllocation B o sel adv bm := by
  match sel, hlen with
  | p :: q :: rest, _ =>
      unfold calculateAllocation
      rw [if_neg (by simp [not_or, not_le.mpr hB]), if_neg (by simp)]

theorem multi_eq_sort_raw (B : ℚ) (o : Objective) (sel : List Platform) (adv : Bool)
    (bm : BenchmarkInputs) :
    multiAllocation B o sel adv bm = sortByBudgetDesc (rawMultiAllocation B o sel adv bm) := by
  unfold multiAllocation rawMultiAllocation
  by_cases h : sumOfSelectedWeights adv o bm sel = 0
  · rw [if_pos h, if_pos h]; simp [sortByBudgetDesc]
  · rw [if_neg h, if_neg h]

theorem calc_eq_sort_raw (B : ℚ) (o : Objective) (sel : List Platform) (adv : Bool)
    (bm : BenchmarkInputs) (ff : Bool) :
    calculateAllocation B o sel adv bm ff =
      sortByBudgetDesc (rawAllocation B o sel adv bm ff) := by
  unfold calculateAllocation rawAllocation
  by_cases h : B ≤ 0 ∨ sel = []
  · rw [if_pos h, if_pos h]; simp [sortByBudgetDesc]
  · rw [if_neg h, if_neg h]
    cases ff with
    | true => rw [if_pos rfl, if_pos rfl]
    | false =>
        rw [if_neg (by simp), if_neg (by simp)]
        match sel with
        | [] => exact absurd (Or.inr rfl) h
        | [p] => simp [sortByBudgetDesc]
        | p :: q :: rest => exact multi_eq_sort_raw B o (p :: q :: rest) adv bm

theorem mem_addToLast (d : ℚ) :
    ∀ rs e, e ∈ addToLast d rs →
      ∃ r ∈ rs, e.platform = r.platform ∧ e.allocationPercentage = r.allocationPercentage
  | [], e, he => by simp [addToLast] at he
  | [r], e, he => by
      simp only [addToLast, List.mem_singleton] at he
      exact ⟨r, by simp, by simp [he]⟩
  | r :: s :: rest, e, he => by
      rcases List.mem_cons.mp he with h | h
      · exact ⟨r, by simp, by simp [h]⟩
      · obtain ⟨r2, hr2, hprop⟩ := mem_addToLast d (s :: rest) e h
        exact ⟨r2, List.mem_cons_of_mem r hr2, hprop⟩

theorem mem_platformEntries (B S : ℚ) (w : Platform → ℚ) :
    ∀ sel e, e ∈ platformEntries B S w sel →
      ∃ p ∈ sel, e.platform = displayName p ∧ e.allocationPercentage = w p / S * 100
  | [], e, he => by simp [platformEntries] at he
  | [p], e, he => by
      simp only [platformEntries, List.mem_singleton] at he
      exact ⟨p, by simp, by simp [he]⟩
  | p :: q :: rest, e, he => by
      rcases List.mem_cons.mp he with h | h
      · exact ⟨p, by simp, by simp [h]⟩
      · obtain ⟨p2, hp2, hprop⟩ := mem_platformEntries B S w (q :: rest) e h
        exact ⟨p2, List.mem_cons_of_mem p hp2, hprop⟩

/-- The pair of fields of a result row that the remainder absorption and the
final sort leave untouched. -/
def namePct (r : AllocationResult) : String × ℚ :=
  (r.platform, r.allocationPercentage)

theorem namePct_addToLast (d : ℚ) :
    ∀ rs, (addToLast d rs).map namePct = rs.map namePct
  | [] => rfl
  | [r] => rfl
  | r :: s :: rest => by
      simp only [addToLast, List.map_cons, namePct_addToLast d (s :: rest)]

theorem stageEntries_fixed (B : ℚ) :
    stageEntries B FIXED_FUNNEL_STAGES =
      [⟨"Awareness", 40, ((jsRound (40 / 100 * B) : ℤ) : ℚ)⟩,
       ⟨"Traffic", 35, ((jsRound (35 / 100 * B) : ℤ) : ℚ)⟩,
       ⟨"Conversions", 25, 25 / 100 * B⟩] := rfl

/-- Claim C1: in every mode, a non-empty result's budgets sum exactly to the
input total budget. -/
theorem claim_C1 (B : ℚ) (o : Objective) (sel : List Platform) (adv : Bool)
    (bm : BenchmarkInputs) (ff : Bool)
    (h : calculateAllocation B o sel adv bm ff ≠ []) :
    budgetSum (calculateAllocation B o sel adv bm ff) = B := by
  by_cases hdeg : B ≤ 0 ∨ sel = []
  · exact absurd (calc_degenerate B o sel adv bm ff hdeg) h
  · push_neg at hdeg
    obtain ⟨hB, hsel⟩ := hdeg
    cases ff with
    | true =>
        rw [calc_funnel B o sel adv bm hB hsel, budgetSum_sortByBudgetDesc,
          budgetSum_absorbRemainder]
        rw [stageEntries_fixed]
        simp
    | false =>
        match sel, hsel with
        | [p], _ =>
            rw [calc_single B o p adv bm hB]
            simp [budgetSum]
        | p :: q :: rest, _ =>
            rw [calc_multi B o (p :: q :: rest) adv bm hB (by simp)] at h ⊢
            unfold multiAllocation at h ⊢
            by_cases hS : sumOfSelectedWeights adv o bm (p :: q :: rest) = 0
            · rw [if_pos hS] at h
              exact absurd rfl h
            · rw [if_neg hS]
              rw [budgetSum_sortByBudgetDesc, budgetSum_absorbRemainder]
              intro hnil
              have := length_platformEntries B (sumOfSelectedWeights adv o bm (p :: q :: rest))
                (platformWeight adv o bm (p :: q :: rest)) (p :: q :: rest)
              rw [hnil] at this
              simp at this

/-- Witness for C1 at a concrete input: a single-platform call with budget 5. -/
theorem claim_C1_witness :
    budgetSum (calculateAllocation 5 .awareness [.meta] false emptyBench false) = 5 := by
  refine claim_C1 5 .awareness [.meta] false emptyBench false ?_
  rw [calc_single 5 .awareness .meta false emptyBench (by norm_num)]
  simp

/-- Claim C2: the result is empty exactly when the budget is non-positive,
no platform is selected, or the weighted multi-platform branch finds a zero
sum of (possibly adjusted) weights; otherwise it is non-empty.  (The
embedding is a total function, so no exception can occur.) -/
theorem claim_C2 (B : ℚ) (o : Objective) (sel : List Platform) (adv : Bool)
    (bm : BenchmarkInputs) (ff : Bool) :
    calculateAllocation B o sel adv bm ff = [] ↔
      (B ≤ 0 ∨ sel = [] ∨
        (ff = false ∧ 2 ≤ sel.length ∧ sumOfSelectedWeights adv o bm sel = 0)) := by
  by_cases hdeg : B ≤ 0 ∨ sel = []
  · constructor
    · intro _
      exact hdeg.elim Or.inl (fun x => Or.inr (Or.inl x))
    · intro _
      exact calc_degenerate B o sel adv bm ff hdeg
  · push_neg at hdeg
    obtain ⟨hB, hsel⟩ := hdeg
    cases ff with
    | true =>
        rw [calc_funnel B o sel adv bm hB hsel]
        constructor
        · intro hnil
          have hlen : (sortByBudgetDesc (absorbRemainder B
              (stageEntries B FIXED_FUNNEL_STAGES))).length = 3 := by
            rw [length_sortByBudgetDesc, length_absorbRemainder, stageEntries_fixed]
            rfl
          rw [hnil] at hlen
          simp at hlen
        · intro hrhs
          rcases hrhs with h | h | h
          · exact absurd h (not_le.mpr hB)
          · exact absurd h hsel
          · simp at h
    | false =>
        match sel, hsel with
        | [p], _ =>
            rw [calc_single B o p adv bm hB]
            simp [not_le.mpr hB]
        | p :: q :: rest, _ =>
            rw [calc_multi B o (p :: q :: rest) adv bm hB (by simp)]
            unfold multiAllocation
            by_cases hS : sumOfSelectedWeights adv o bm (p :: q :: rest) = 0
            · rw [if_pos hS]
              constructor
              · intro _
                exact Or.inr (Or.inr ⟨rfl, by simp, hS⟩)
              · intro _
                rfl
            · rw [if_neg hS]
              constructor
              · intro hnil
                have hlen := length_sortByBudgetDesc (absorbRemainder B
                  (platformEntries B (sumOfSelectedWeights adv o bm (p :: q :: rest))
                    (platformWeight adv o bm (p :: q :: rest)) (p :: q :: rest)))
                rw [hnil, length_absorbRemainder, length_platformEntries] at hlen
                simp at hlen
              · intro hrhs
                rcases hrhs with h | h | h
                · exact absurd h (not_le.mpr hB)
                · simp at h
                · exact absurd h.2.2 hS

/-- Claim C3: with full funnel enabled, a positive budget and a non-empty
selection, the result is the three stages Awareness 40, Traffic 35,
Conversions 25 whatever the other inputs; at budget 100000 the rows are
40000, 35000, 25000 in descending order. -/
theorem claim_C3 (o : Objective) (sel : List Platform) (adv : Bool)
    (bm : BenchmarkInputs) (hsel : sel ≠ []) :
    (∀ B : ℚ, 0 < B →
      ((calculateAllocation B o sel adv bm true).map namePct).Perm
        [("Awareness", (40 : ℚ)), ("Traffic", 35), ("Conversions", 25)]) ∧
    calculateAllocation 100000 o sel adv bm true =
      [⟨"Awareness", 40, 40000⟩, ⟨"Traffic", 35, 35000⟩, ⟨"Conversions", 25, 25000⟩] := by
  constructor
  · intro B hB
    rw [calc_funnel B o sel adv bm hB hsel]
    refine ((List.mergeSort_perm _ byBudgetDesc).map namePct).trans ?_
    rw [absorbRemainder, namePct_addToLast, stageEntries_fixed]
    simp [namePct]
  · rw [calc_funnel 100000 o sel adv bm (by norm_num) hsel, stageEntries_fixed]
    have h40 : ((jsRound (40 / 100 * 100000) : ℤ) : ℚ) = 40000 := by norm_num [jsRound]
    have h35 : ((jsRound (35 / 100 * 100000) : ℤ) : ℚ) = 35000 := by norm_num [jsRound]
    have h25 : (25 / 100 * 100000 : ℚ) = 25000 := by norm_num
    rw [h40, h35, h25]
    have habs : absorbRemainder 100000
        [⟨"Awareness", 40, 40000⟩, ⟨"Traffic", 35, 35000⟩, ⟨"Conversions", 25, 25000⟩] =
        [⟨"Awareness", 40, 40000⟩, ⟨"Traffic", 35, 35000⟩, ⟨"Conversions", 25, 25000⟩] := by
      simp only [absorbRemainder, budgetSum, addToLast, List.map_cons, List.map_nil,
        List.sum_cons, List.sum_nil]
      norm_num
    rw [habs]
    apply List.mergeSort_of_sorted
    norm_num [List.pairwise_cons, byBudgetDesc]

/-- Witness for C3 at a concrete selection. -/
theorem claim_C3_witness :
    calculateAllocation 100000 .awareness [.meta] false emptyBench true =
      [⟨"Awareness", 40, 40000⟩, ⟨"Traffic", 35, 35000⟩, ⟨"Conversions", 25, 25000⟩] :=
  (claim_C3 .awareness [.meta] false emptyBench (by simp)).2

/-- Claim C4: with full funnel off and exactly one selected platform, the
whole budget goes to that platform at 100 percent, whatever the objective,
mode and benchmarks. -/
theorem claim_C4 (B : ℚ) (o : Objective) (adv : Bool) (bm : BenchmarkInputs)
    (p : Platform) (hB : 0 < B) :
    calculateAllocation B o [p] adv bm false = [⟨displayName p, 100, B⟩] :=
  calc_single B o p adv bm hB

/-- Witness for C4 at a concrete input. -/
theorem claim_C4_witness :
    calculateAllocation 7 .leads [.tiktok] true emptyBench false =
      [⟨displayName .tiktok, 100, 7⟩] :=
  claim_C4 7 .leads true emptyBench .tiktok (by norm_num)

/-- Claim C9: with full funnel enabled, a positive budget and non-empty
selections, the result depends on the total budget alone. -/
theorem claim_C9 (B : ℚ) (o1 o2 : Objective) (sel1 sel2 : List Platform)
    (a1 a2 : Bool) (bm1 bm2 : BenchmarkInputs) (hB : 0 < B)
    (h1 : sel1 ≠ []) (h2 : sel2 ≠ []) :
    calculateAllocation B o1 sel1 a1 bm1 true = calculateAllocation B o2 sel2 a2 bm2 true := by
  rw [calc_funnel B o1 sel1 a1 bm1 hB h1, calc_funnel B o2 sel2 a2 bm2 hB h2]

/-- Witness for C9 at two concretely different inputs. -/
theorem claim_C9_witness :
    calculateAllocation 12345 .awareness [.meta] false emptyBench true =
      calculateAllocation 12345 .conversions [.tiktok, .linkedin] true emptyBench true :=
  claim_C9 12345 .awareness .conversions [.meta] [.tiktok, .linkedin] false true
    emptyBench emptyBench (by norm_num) (by simp) (by simp)

/-- The active metric of an objective, in the words of the specification:
CPM for awareness, CPC for engagement, CPA for conversions and for leads. -/
def specActiveMetric (o : Objective) (bm : BenchmarkInputs) : Platform → Option ℚ :=
  match o with
  | .awareness => bm.cpm
  | .engagement => bm.cpc
  | .conversions => bm.cpa
  | .leads => bm.cpa

/-- The advanced-mode re-weighting rule as the specification words it: a
selected platform with a supplied, strictly positive active-metric benchmark
gets its base weight scaled by (average of the positive supplied benchmarks
over the selection) divided by its own value; otherwise it keeps its base
weight. -/
def specAdjustedWeight (o : Objective) (bm : BenchmarkInputs) (sel : List Platform)
    (p : Platform) : ℚ :=
  match specActiveMetric o bm p with
  | some c =>
      if 0 < c then
        baseWeight o p *
          (((activeBenchmarks (specActiveMetric o bm) sel).sum /
            ((activeBenchmarks (specActiveMetric o bm) sel).length : ℚ)) / c)
      else baseWeight o p
  | none => baseWeight o p

theorem platformWeight_true_eq_spec (o : Objective) (bm : BenchmarkInputs)
    (sel : List Platform) (p : Platform) (hp : p ∈ sel) :
    platformWeight true o bm sel p = specAdjustedWeight o bm sel p := by
  have key : ∀ (m : Platform → Option ℚ) (base : ℚ),
      (match m p with
       | some c =>
           if 0 < c then
             base * (((activeBenchmarks m sel).sum /
               ((activeBenchmarks m sel).length : ℚ)) / c)
           else base
       | none => base) =
      adjustIfPositive base (m p) (activeBenchmarks m sel) := by
    intro m base
    cases hm : m p with
    | none => rfl
    | some c =>
        simp only [adjustIfPositive]
        by_cases hc : 0 < c
        · have hne : activeBenchmarks m sel ≠ [] :=
            List.ne_nil_of_mem (mem_activeBenchmarks m sel p c hp hm hc)
          rw [if_pos hc, if_pos ⟨hc, hne⟩]
        · rw [if_neg hc, if_neg (fun h => hc h.1)]
  cases o with
  | awareness =>
      rw [platformWeight, if_pos rfl, specAdjustedWeight]
      rw [show specActiveMetric .awareness bm = bm.cpm from rfl]
      rw [key bm.cpm (baseWeight .awareness p)]
      rw [adjustedWeight]
      cases hm : bm.cpm p with
      | none => simp [adjustIfPositive, hm]
      | some c => rw [if_pos ⟨rfl, by simp [hm]⟩]
  | engagement =>
      rw [platformWeight, if_pos rfl, specAdjustedWeight]
      rw [show specActiveMetric .engagement bm = bm.cpc from rfl]
      rw [key bm.cpc (baseWeight .engagement p)]
      rw [adjustedWeight]
      cases hm : bm.cpc p with
      | none => simp [adjustIfPositive, hm]
      | some c =>
          rw [if_neg (by simp), if_pos ⟨rfl, by simp [hm]⟩]
  | conversions =>
      rw [platformWeight, if_pos rfl, specAdjustedWeight]
      rw [show specActiveMetric .conversions bm = bm.cpa from rfl]
      rw [key bm.cpa (baseWeight .conversions p)]
      rw [adjustedWeight]
      cases hm : bm.cpa p with
      | none => simp [adjustIfPositive, hm]
      | some c =>
          rw [if_neg (by simp), if_neg (by simp), if_pos ⟨rfl, by simp [hm]⟩]
  | leads =>
      rw [platformWeight, if_pos rfl, specAdjustedWeight]
      rw [show specActiveMetric .leads bm = bm.cpa from rfl]
      rw [key bm.cpa (baseWeight .leads p)]
      rw [adjustedWeight]
      cases hm : bm.cpa p with
      | none => simp [adjustIfPositive, hm]
      | some c =>
          rw [if_neg (by simp), if_neg (by simp), if_neg (by simp),
            if_pos ⟨rfl, by simp [hm]⟩]

/-- Claim C5: in advanced mode the weight actually used for a selected
platform is exactly the specification's re-weighting rule. -/
theorem claim_C5 (o : Objective) (bm : BenchmarkInputs) (sel : List Platform)
    (p : Platform) (hp : p ∈ sel) :
    platformWeight true o bm sel p = specAdjustedWeight o bm sel p :=
  platformWeight_true_eq_spec o bm sel p hp

/-- Witness for C5 at a concrete input with one supplied benchmark. -/
theorem claim_C5_witness :
    platformWeight true .awareness emptyBench [.meta, .tiktok] .meta =
      specAdjustedWeight .awareness emptyBench [.meta, .tiktok] .meta :=
  claim_C5 .awareness emptyBench [.meta, .tiktok] .meta (by simp)

theorem filter_budget_sortByBudgetDesc (rs : List AllocationResult) (q : ℚ) :
    (sortByBudgetDesc rs).filter (fun r => decide (r.budget = q)) =
      rs.filter (fun r => decide (r.budget = q)) := by
  have hsub0 : List.Sublist (rs.filter (fun r => decide (r.budget = q))) rs :=
    List.filter_sublist rs
  have hpw : (rs.filter (fun r => decide (r.budget = q))).Pairwise
      (fun a b => byBudgetDesc a b = true) := by
    apply List.pairwise_of_forall_mem_list
    intro a ha b hb
    have ha2 : a.budget = q := of_decide_eq_true (List.mem_filter.mp ha).2
    have hb2 : b.budget = q := of_decide_eq_true (List.mem_filter.mp hb).2
    simp [byBudgetDesc, ha2, hb2]
  have hsub : List.Sublist (rs.filter (fun r => decide (r.budget = q)))
      (sortByBudgetDesc rs) :=
    List.sublist_mergeSort byBudgetDesc_trans byBudgetDesc_total hpw hsub0
  have hsub2 : List.Sublist (rs.filter (fun r => decide (r.budget = q)))
      ((sortByBudgetDesc rs).filter (fun r => decide (r.budget = q))) := by
    have h2 := hsub.filter (fun r => decide (r.budget = q))
    rw [List.filter_filter] at h2
    simpa using h2
  have hlen : ((sortByBudgetDesc rs).filter (fun r => decide (r.budget = q))).length =
      (rs.filter (fun r => decide (r.budget = q))).length :=
    ((List.mergeSort_perm rs byBudgetDesc).filter (fun r => decide (r.budget = q))).length_eq
  exact (hsub2.eq_of_length hlen.symm).symm

/-- Claim C7: every result list is sorted by descending budget, and rows of
equal budget keep the relative order they had before sorting. -/
theorem claim_C7 (B : ℚ) (o : Objective) (sel : List Platform) (adv : Bool)
    (bm : BenchmarkInputs) (ff : Bool) :
    (calculateAllocation B o sel adv bm ff).Pairwise (fun a b => b.budget ≤ a.budget) ∧
    ∀ q : ℚ, (calculateAllocation B o sel adv bm ff).filter (fun r => decide (r.budget = q)) =
      (rawAllocation B o sel adv bm ff).filter (fun r => decide (r.budget = q)) := by
  rw [calc_eq_sort_raw B o sel adv bm ff]
  constructor
  · have h := List.sorted_mergeSort byBudgetDesc_trans byBudgetDesc_total
      (rawAllocation B o sel adv bm ff)
    exact h.imp (fun hab => of_decide_eq_true hab)
  · intro q
    exact filter_budget_sortByBudgetDesc (rawAllocation B o sel adv bm ff) q

/-- Counterexample to C8: no platform at all is absent from the leads row of
`BASE_WEIGHTS`, so no two distinct platforms are omitted there. -/
theorem claim_C8_counterexample :
    ¬ ∃ p1 p2 : Platform, p1 ≠ p2 ∧
      p1 ∉ (BASE_WEIGHTS .leads).map Prod.fst ∧
      p2 ∉ (BASE_WEIGHTS .leads).map Prod.fst := by
  decide

/-- Claim C8 as amended: the leads row of `BASE_WEIGHTS` lists every one of
the seven platforms (none is omitted), and every objective/platform pair
carries a non-negative weight. -/
theorem claim_C8 :
    (∀ p : Platform, p ∈ (BASE_WEIGHTS .leads).map Prod.fst) ∧
    ∀ (o : Objective) (p : Platform), 0 ≤ baseWeight o p := by
  decide

theorem sumOfSelectedWeights_pos (adv : Bool) (o : Objective) (bm : BenchmarkInputs)
    (sel : List Platform) (p : Platform) (hp : p ∈ sel)
    (hpos : 0 < platformWeight adv o bm sel p) :
    0 < sumOfSelectedWeights adv o bm sel := by
  refine lt_of_lt_of_le hpos (List.single_le_sum ?_ _ ?_)
  · intro x hx
    obtain ⟨r, -, rfl⟩ := List.mem_map.mp hx
    exact platformWeight_nonneg adv o bm sel r
  · exact List.mem_map_of_mem _ (List.mem_dedup.mpr hp)

theorem avg_activeBenchmarks_pos (m : Platform → Option ℚ) (sel : List Platform)
    (p : Platform) (c : ℚ) (hp : p ∈ sel) (hc : m p = some c) (hcpos : 0 < c) :
    0 < (activeBenchmarks m sel).sum / ((activeBenchmarks m sel).length : ℚ) := by
  have hmem := mem_activeBenchmarks m sel p c hp hc hcpos
  have hne : activeBenchmarks m sel ≠ [] := List.ne_nil_of_mem hmem
  refine div_pos (List.sum_pos _ (activeBenchmarks_pos m sel) hne) ?_
  exact_mod_cast List.length_pos.mpr hne

theorem platformWeight_of_pos_benchmark (o : Objective) (bm : BenchmarkInputs)
    (sel : List Platform) (p : Platform) (c : ℚ) (hp : p ∈ sel)
    (hc : specActiveMetric o bm p = some c) (hcpos : 0 < c) :
    platformWeight true o bm sel p =
      baseWeight o p *
        (((activeBenchmarks (specActiveMetric o bm) sel).sum /
          ((activeBenchmarks (specActiveMetric o bm) sel).length : ℚ)) / c) := by
  rw [platformWeight_true_eq_spec o bm sel p hp]
  simp only [specAdjustedWeight, hc, if_pos hcpos]

theorem mem_calc_multi (B : ℚ) (o : Objective) (sel : List Platform) (adv : Bool)
    (bm : BenchmarkInputs) (hB : 0 < B) (hlen : 2 ≤ sel.length)
    (hS : sumOfSelectedWeights adv o bm sel ≠ 0) (e : AllocationResult)
    (he : e ∈ calculateAllocation B o sel adv bm false) :
    ∃ p ∈ sel, e.platform = displayName p ∧
      e.allocationPercentage =
        platformWeight adv o bm sel p / sumOfSelectedWeights adv o bm sel * 100 := by
  rw [calc_multi B o sel adv bm hB hlen] at he
  unfold multiAllocation at he
  rw [if_neg hS] at he
  unfold sortByBudgetDesc at he
  have he2 := List.mem_mergeSort.mp he
  obtain ⟨r, hr, h1, h2⟩ := mem_addToLast _ _ e he2
  obtain ⟨p, hp, h3, h4⟩ := mem_platformEntries _ _ _ _ r hr
  exact ⟨p, hp, h1.trans h3, h2.trans h4⟩

/-- Claim C6: in advanced multi-platform mode, of two selected platforms with
the same strictly positive base weight that both supply strictly positive
active-metric benchmarks, the one with the lower benchmark gets the strictly
larger allocation percentage. -/
theorem claim_C6 (B : ℚ) (o : Objective) (bm : BenchmarkInputs) (sel : List Platform)
    (p1 p2 : Platform) (c1 c2 : ℚ) (e1 e2 : AllocationResult)
    (hB : 0 < B) (hlen : 2 ≤ sel.length)
    (hp1 : p1 ∈ sel) (hp2 : p2 ∈ sel)
    (hbase : baseWeight o p1 = baseWeight o p2) (hbasePos : 0 < baseWeight o p1)
    (hc1 : specActiveMetric o bm p1 = some c1) (hc2 : specActiveMetric o bm p2 = some c2)
    (hc1pos : 0 < c1) (hlt : c1 < c2)
    (he1 : e1 ∈ calculateAllocation B o sel true bm false)
    (he2 : e2 ∈ calculateAllocation B o sel true bm false)
    (hn1 : e1.platform = displayName p1) (hn2 : e2.platform = displayName p2) :
    e2.allocationPercentage < e1.allocationPercentage := by
  have havg := avg_activeBenchmarks_pos (specActiveMetric o bm) sel p1 c1 hp1 hc1 hc1pos
  have hw1 := platformWeight_of_pos_benchmark o bm sel p1 c1 hp1 hc1 hc1pos
  have hw2 := platformWeight_of_pos_benchmark o bm sel p2 c2 hp2 hc2 (hc1pos.trans hlt)
  have hw1pos : 0 < platformWeight true o bm sel p1 := by
    rw [hw1]
    exact mul_pos hbasePos (div_pos havg hc1pos)
  have hS := sumOfSelectedWeights_pos true o bm sel p1 hp1 hw1pos
  obtain ⟨q1, hq1, hname1, hpct1⟩ := mem_calc_multi B o sel true bm hB hlen hS.ne' e1 he1
  obtain ⟨q2, hq2, hname2, hpct2⟩ := mem_calc_multi B o sel true bm hB hlen hS.ne' e2 he2
  have hq1p : q1 = p1 := displayName_injective q1 p1 (hname1 ▸ hn1).symm.symm
  have hq2p : q2 = p2 := displayName_injective q2 p2 (hname2 ▸ hn2).symm.symm
  rw [hq1p] at hpct1
  rw [hq2p] at hpct2
  rw [hpct1, hpct2]
  have hww : platformWeight true o bm sel p2 < platformWeight true o bm sel p1 := by
    rw [hw1, hw2, ← hbase]
    exact mul_lt_mul_of_pos_left (div_lt_div_of_pos_left havg hc1pos hlt) hbasePos
  have hdiv : platformWeight true o bm sel p2 / sumOfSelectedWeights true o bm sel <
      platformWeight true o bm sel p1 / sumOfSelectedWeights true o bm sel :=
    (div_lt_div_iff_of_pos_right hS).mpr hww
  exact mul_lt_mul_of_pos_right hdiv (by norm_num)

/-- A CPM benchmark form supplying 1 for Meta and 2 for TikTok. -/
def cpmC6 : Platform → Option ℚ
  | .meta => some 1
  | .tiktok => some 2
  | _ => none

/-- Benchmark inputs used for concrete advanced-mode evaluations. -/
def bmC6 : BenchmarkInputs := ⟨cpmC6, fun _ => none, fun _ => none⟩

theorem abC6_eval : activeBenchmarks bmC6.cpm [.meta, .tiktok] = [1, 2] := by
  norm_num [activeBenchmarks, bmC6, cpmC6, List.filterMap_cons]

theorem wmC6_eval : platformWeight true .awareness bmC6 [.meta, .tiktok] .meta = 75 / 2 := by
  rw [platformWeight, if_pos rfl, adjustedWeight,
    if_pos (⟨rfl, rfl⟩ : Objective.awareness = .awareness ∧ (bmC6.cpm .meta).isSome = true),
    abC6_eval, show bmC6.cpm Platform.meta = some 1 from rfl,
    show baseWeight .awareness .meta = 25 from rfl]
  simp only [adjustIfPositive]
  rw [if_pos ⟨by norm_num, by simp⟩]
  norm_num

theorem wtC6_eval : platformWeight true .awareness bmC6 [.meta, .tiktok] .tiktok = 75 / 4 := by
  rw [platformWeight, if_pos rfl, adjustedWeight,
    if_pos (⟨rfl, rfl⟩ : Objective.awareness = .awareness ∧ (bmC6.cpm .tiktok).isSome = true),
    abC6_eval, show bmC6.cpm Platform.tiktok = some 2 from rfl,
    show baseWeight .awareness .tiktok = 25 from rfl]
  simp only [adjustIfPositive]
  rw [if_pos ⟨by norm_num, by simp⟩]
  norm_num

theorem sC6_eval : sumOfSelectedWeights true .awareness bmC6 [.meta, .tiktok] = 225 / 4 := by
  unfold sumOfSelectedWeights
  rw [show ([Platform.meta, .tiktok]).dedup = [Platform.meta, .tiktok] from by decide]
  rw [List.map_cons, List.map_cons, List.map_nil, wmC6_eval, wtC6_eval]
  norm_num

theorem calcC6_eval : calculateAllocation 1000 .awareness [.meta, .tiktok] true bmC6 false =
    [⟨"Meta Ads", 200 / 3, 667⟩, ⟨"TikTok Ads", 100 / 3, 333⟩] := by
  rw [calc_multi 1000 .awareness [.meta, .tiktok] true bmC6 (by norm_num) (by simp)]
  unfold multiAllocation
  rw [sC6_eval, if_neg (by norm_num)]
  simp only [platformEntries, wmC6_eval, wtC6_eval,
    show displayName .meta = "Meta Ads" from rfl,
    show displayName .tiktok = "TikTok Ads" from rfl]
  have hpm : (75 / 2 : ℚ) / (225 / 4) * 100 = 200 / 3 := by norm_num
  have hpt : (75 / 4 : ℚ) / (225 / 4) * 100 = 100 / 3 := by norm_num
  have hbm : ((jsRound ((75 / 2 : ℚ) / (225 / 4) * 1000) : ℤ) : ℚ) = 667 := by
    norm_num [jsRound]
  have hbt : (75 / 4 : ℚ) / (225 / 4) * 1000 = 1000 / 3 := by norm_num
  rw [hpm, hpt, hbm, hbt]
  have habs : absorbRemainder 1000
      [⟨"Meta Ads", 200 / 3, 667⟩, ⟨"TikTok Ads", 100 / 3, 1000 / 3⟩] =
      [⟨"Meta Ads", 200 / 3, 667⟩, ⟨"TikTok Ads", 100 / 3, 333⟩] := by
    simp only [absorbRemainder, budgetSum, addToLast, List.map_cons, List.map_nil,
      List.sum_cons, List.sum_nil]
    norm_num
  rw [habs]
  apply List.mergeSort_of_sorted
  norm_num [List.pairwise_cons, byBudgetDesc]

/-- Witness for C6: Meta (CPM 1) beats TikTok (CPM 2) at equal base weight. -/
theorem claim_C6_witness :
    (⟨"TikTok Ads", 100 / 3, 333⟩ : AllocationResult).allocationPercentage <
      (⟨"Meta Ads", 200 / 3, 667⟩ : AllocationResult).allocationPercentage :=
  claim_C6 1000 .awareness bmC6 [.meta, .tiktok] .meta .tiktok 1 2
    ⟨"Meta Ads", 200 / 3, 667⟩ ⟨"TikTok Ads", 100 / 3, 333⟩
    (by norm_num) (by simp) (by simp) (by simp) rfl
    (by rw [show baseWeight .awareness .meta = 25 from rfl]; norm_num) rfl rfl
    (by norm_num) (by norm_num)
    (by rw [calcC6_eval]; simp) (by rw [calcC6_eval]; simp) rfl rfl

/-- A CPM benchmark form supplying 999 for Meta and 1001 for TikTok. -/
def cpmC10 : Platform → Option ℚ
  | .meta => some 999
  | .tiktok => some 1001
  | _ => none

/-- Benchmark inputs that expose the negative-remainder edge case. -/
def bmC10 : BenchmarkInputs := ⟨cpmC10, fun _ => none, fun _ => none⟩

theorem abC10_eval :
    activeBenchmarks bmC10.cpm [.meta, .tiktok, .google_search] = [999, 1001] := by
  norm_num [activeBenchmarks, bmC10, cpmC10, List.filterMap_cons]

theorem wmC10_eval :
    platformWeight true .awareness bmC10 [.meta, .tiktok, .google_search] .meta =
      25000 / 999 := by
  rw [platformWeight, if_pos rfl, adjustedWeight,
    if_pos (⟨rfl, rfl⟩ : Objective.awareness = .awareness ∧ (bmC10.cpm .meta).isSome = true),
    abC10_eval, show bmC10.cpm Platform.meta = some 999 from rfl,
    show baseWeight .awareness .meta = 25 from rfl]
  simp only [adjustIfPositive]
  rw [if_pos ⟨by norm_num, by simp⟩]
  norm_num

theorem wtC10_eval :
    platformWeight true .awareness bmC10 [.meta, .tiktok, .google_search] .tiktok =
      25000 / 1001 := by
  rw [platformWeight, if_pos rfl, adjustedWeight,
    if_pos (⟨rfl, rfl⟩ : Objective.awareness = .awareness ∧ (bmC10.cpm .tiktok).isSome = true),
    abC10_eval, show bmC10.cpm Platform.tiktok = some 1001 from rfl,
    show baseWeight .awareness .tiktok = 25 from rfl]
  simp only [adjustIfPositive]
  rw [if_pos ⟨by norm_num, by simp⟩]
  norm_num

theorem wgC10_eval :
    platformWeight true .awareness bmC10 [.meta, .tiktok, .google_search] .google_search =
      0 := by
  rw [platformWeight, if_pos rfl, adjustedWeight,
    if_neg (by simp [bmC10, cpmC10]), if_neg (by simp), if_neg (by simp),
    if_neg (by simp)]
  rfl

theorem sC10_eval :
    sumOfSelectedWeights true .awareness bmC10 [.meta, .tiktok, .google_search] =
      50000000 / 999999 := by
  unfold sumOfSelectedWeights
  rw [show ([Platform.meta, .tiktok, .google_search]).dedup =
      [Platform.meta, .tiktok, .google_search] from by decide]
  rw [List.map_cons, List.map_cons, List.map_cons, List.map_nil,
    wmC10_eval, wtC10_eval, wgC10_eval]
  norm_num

theorem calcC10_eval :
    calculateAllocation 1000 .awareness [.meta, .tiktok, .google_search] true bmC10 false =
      [⟨"Meta Ads", 1001 / 20, 501⟩, ⟨"TikTok Ads", 999 / 20, 500⟩,
       ⟨"Google Search Ads", 0, -1⟩] := by
  rw [calc_multi 1000 .awareness [.meta, .tiktok, .google_search] true bmC10
    (by norm_num) (by simp)]
  unfold multiAllocation
  rw [sC10_eval, if_neg (by norm_num)]
  simp only [platformEntries, wmC10_eval, wtC10_eval, wgC10_eval,
    show displayName .meta = "Meta Ads" from rfl,
    show displayName .tiktok = "TikTok Ads" from rfl,
    show displayName .google_search = "Google Search Ads" from rfl]
  have hp1 : (25000 / 999 : ℚ) / (50000000 / 999999) * 100 = 1001 / 20 := by norm_num
  have hb1 : ((jsRound ((25000 / 999 : ℚ) / (50000000 / 999999) * 1000) : ℤ) : ℚ) = 501 := by
    norm_num [jsRound]
  have hp2 : (25000 / 1001 : ℚ) / (50000000 / 999999) * 100 = 999 / 20 := by norm_num
  have hb2 : ((jsRound ((25000 / 1001 : ℚ) / (50000000 / 999999) * 1000) : ℤ) : ℚ) = 500 := by
    norm_num [jsRound]
  have hp3 : (0 : ℚ) / (50000000 / 999999) * 100 = 0 := by norm_num
  have hb3 : (0 : ℚ) / (50000000 / 999999) * 1000 = 0 := by norm_num
  rw [hp1, hb1, hp2, hb2, hp3, hb3]
  have habs : absorbRemainder 1000
      [⟨"Meta Ads", 1001 / 20, 501⟩, ⟨"TikTok Ads", 999 / 20, 500⟩,
       ⟨"Google Search Ads", 0, 0⟩] =
      [⟨"Meta Ads", 1001 / 20, 501⟩, ⟨"TikTok Ads", 999 / 20, 500⟩,
       ⟨"Google Search Ads", 0, -1⟩] := by
    simp only [absorbRemainder, budgetSum, addToLast, List.map_cons, List.map_nil,
      List.sum_cons, List.sum_nil]
    norm_num
  rw [habs]
  apply List.mergeSort_of_sorted
  norm_num [List.pairwise_cons, byBudgetDesc]

/-- Claim C10: an input that passes every upstream validation check (budget
at least 1000, distinct platforms, non-negative benchmarks, non-zero total
base weight, full funnel off) whose result contains a strictly negative
budget row: the last platform absorbs a negative remainder. -/
theorem claim_C10 :
    (1000 : ℚ) ≥ 1000 ∧
    ([Platform.meta, .tiktok, .google_search]).Nodup ∧
    2 ≤ ([Platform.meta, .tiktok, .google_search]).length ∧
    (∀ p : Platform, (bmC10.cpm p).all (fun c => decide (0 ≤ c)) = true) ∧
    (∀ p : Platform, (bmC10.cpc p).all (fun c => decide (0 ≤ c)) = true) ∧
    (∀ p : Platform, (bmC10.cpa p).all (fun c => decide (0 ≤ c)) = true) ∧
    (([Platform.meta, .tiktok, .google_search]).map (baseWeight .awareness)).sum ≠ 0 ∧
    ∃ e ∈ calculateAllocation 1000 .awareness [.meta, .tiktok, .google_search] true bmC10
      false, e.budget < 0 := by
  refine ⟨by norm_num, by decide, by simp, by decide, by decide, by decide, ?_, ?_⟩
  · rw [List.map_cons, List.map_cons, List.map_cons, List.map_nil,
      show baseWeight .awareness .meta = 25 from rfl,
      show baseWeight .awareness .tiktok = 25 from rfl,
      show baseWeight .awareness .google_search = 0 from rfl]
    norm_num
  · refine ⟨⟨"Google Search Ads", 0, -1⟩, ?_, by norm_num⟩
    rw [calcC10_eval]
    simp
